import Mathlib

/-!
Shallow embedding of the nextkala REST API handlers (src/api/api.go) and
the parts of the `job` package they depend on. HTTP handlers become pure
Lean functions from a request (method, path id, body bytes, headers) and
the registry state to a result (status code, response body, new registry
state). Operations of the `job` package that are not part of the source
slice (Init, Delete, Enable, Disable, cache Set/UpdateRun/GetAllRuns,
templating, the outbound HTTP client) are passed in as explicit oracle
parameters or modelled from the spec, as noted on each definition.
-/

/-- HTTP method, restricted to the methods the embedded routes dispatch on. -/
inductive Method where
  | get
  | put
  | delete
  | post
deriving DecidableEq, Repr

/-- Job type: `job.LocalJob` or `job.RemoteJob`. -/
inductive JobType where
  | local
  | remote
deriving DecidableEq, Repr

/-- `job.JobStatus`: status of one execution, per the spec's data model. -/
inductive JobStatus where
  | running
  | success
  | failed
deriving DecidableEq, Repr

/-- `job.RemoteProperties`: payload of a remote job. -/
structure RemoteProperties where
  url : String
  method : String
  body : String
  headers : List (String × String)
  timeoutMs : Nat
  expectedResponseCodes : List Nat
deriving DecidableEq, Repr

/-- `job.Job`: the fields of the job record that the API handlers read or
write. `nextRunAt` and `armed` stand for the derived timer state. -/
structure Job where
  id : String
  name : String
  owner : String
  jobType : JobType
  disabled : Bool
  schedule : String
  retries : Nat
  epsilon : String
  parents : List String
  command : String
  args : List String
  nextRunAt : Int
  armed : Bool
  remoteProperties : RemoteProperties
deriving DecidableEq, Repr

/-- `job.JobStat`: the record of one execution. -/
structure JobStat where
  id : String
  jobId : String
  ranAt : Int
  numberOfRetries : Nat
  status : JobStatus
  executionDuration : Int
  output : String
deriving DecidableEq, Repr

/-- Association-list lookup with decidable string keys. -/
def alookup {α : Type} : List (String × α) → String → Option α
  | [], _ => none
  | (k, v) :: t, k2 => if k = k2 then some v else alookup t k2

/-- Association-list update: replaces the binding of `k` in place, or
appends it, preserving the order of the other bindings. -/
def aset {α : Type} : List (String × α) → String → α → List (String × α)
  | [], k, v => [(k, v)]
  | (k2, v2) :: t, k, v => if k2 = k then (k, v) :: t else (k2, v2) :: aset t k v

/-- Association-list removal of a key. -/
def aerase {α : Type} : List (String × α) → String → List (String × α)
  | [], _ => []
  | (k2, v2) :: t, k => if k2 = k then t else (k2, v2) :: aerase t k

/-- The registry (`job.JobCache`): jobs keyed by job id and runs keyed by
run id. -/
structure Cache where
  jobs : List (String × Job)
  runs : List (String × JobStat)
deriving DecidableEq, Repr

/-- `cache.Get(id)`: `none` covers both the error return and a nil job,
which every handler maps to the same 404. -/
def getJob (c : Cache) (id : String) : Option Job := alookup c.jobs id

/-- Install a job in the registry under a key. -/
def setJob (c : Cache) (id : String) (j : Job) : Cache :=
  { c with jobs := aset c.jobs id j }

/-- `cache.GetRun(id)`. -/
def getRun (c : Cache) (id : String) : Option JobStat := alookup c.runs id

/-- Store a run record under its id. -/
def setRun (c : Cache) (id : String) (s : JobStat) : Cache :=
  { c with runs := aset c.runs id s }

/-- Remove a job from the registry. -/
def eraseJob (c : Cache) (id : String) : Cache :=
  { c with jobs := aerase c.jobs id }

/-- A registry is well formed when every job is keyed by its own id. -/
def wfCache (c : Cache) : Prop := ∀ p ∈ c.jobs, (p.2).id = p.1

instance (c : Cache) : Decidable (wfCache c) := by
  unfold wfCache; infer_instance

/-- The body-read limit of `unmarshalNewJob`/`unmarshalJobStatus`:
`io.LimitReader(r.Body, 1048576)`. -/
def bodyLimit : Nat := 1048576

/-- `unmarshalNewJob`: reads at most `bodyLimit` bytes of the body and
decodes them; JSON decoding itself happens in the Go runtime, so it is an
oracle `parse` from bytes to an optional job. -/
def unmarshalNewJob (parse : List Nat → Option Job) (body : List Nat) : Option Job :=
  parse (body.take bodyLimit)

/-- `unmarshalJobStatus`: same limited read, decoding to a status. -/
def unmarshalJobStatus (parseS : List Nat → Option JobStatus) (body : List Nat) :
    Option JobStatus :=
  parseS (body.take bodyLimit)

/-- Go's `string(bodyBytes)`: a byte list as a string. -/
def bytesToStr (l : List Nat) : String := String.mk (l.map Char.ofNat)

/-- Response body of a handler, as far as the claims observe it. -/
inductive RespBody where
  | empty
  | errJson
  | idBody (id : String)
  | jobBody (j : Job)
  | runBody (s : JobStat)
  | runsBody (l : List JobStat)
  | rawBody (s : String)
deriving DecidableEq, Repr

/-- Result of one handler invocation: HTTP status, response body, and the
registry state after the call. -/
structure HResult where
  status : Nat
  body : RespBody
  cache : Cache
deriving DecidableEq, Repr

/-- `http.Header.Get`: empty string when the header is absent. -/
def headerGet (hs : List (String × String)) (n : String) : String :=
  match alookup hs n with
  | some v => v
  | none => ""

/-- `req.Header.Set`: replaces any existing value of the header. -/
def setHeader (hs : List (String × String)) (n v : String) : List (String × String) :=
  aset hs n v

/-- The forwarded-header loop of `validateJob`: for each configured
`remote.headers` name, copy the inbound request's value when non-empty. -/
def forwardHeaders (cfg : List String) (inbound : List (String × String))
    (hs : List (String × String)) : List (String × String) :=
  cfg.foldl (fun acc h =>
    let v := headerGet inbound h
    if v ≠ "" then setHeader acc h v else acc) hs

/-- The `/validate` suffix logic of `validateJob`: append a slash only when
the templated url does not already end in one. -/
def appendValidate (url : String) : String :=
  if url.endsWith "/" then url ++ "validate" else url ++ "/validate"

/-- The outbound HTTP request `validateJob` issues. -/
structure OutReq where
  method : String
  url : String
  body : String
  headers : List (String × String)
deriving DecidableEq, Repr

/-- The request-building half of `validateJob`: templatize url and body
(`j.TryTemplatize` is an oracle `templ`; `none` is a template error),
append `/validate`, start from the headers `j.SetHeaders` installed
(`base`), then forward the configured inbound headers. -/
def buildValidateReq (templ : String → Option String) (base : List (String × String))
    (cfg : List String) (inbound : List (String × String)) (j : Job) : Option OutReq :=
  match templ j.remoteProperties.url with
  | none => none
  | some u =>
    match templ j.remoteProperties.body with
    | none => none
    | some b =>
      some { method := "POST"
             url := appendValidate u
             body := b
             headers := forwardHeaders cfg inbound base }

/-- The response-decoding half of `validateJob`: a transport error
(`none`), a non-200 status, or a body that does not decode to a JSON
boolean (`none` in the second component) is the error return; a 200 with a
decoded boolean is returned as the value. -/
def decideValidate (resp : Option (Nat × Option Bool)) : Except Unit Bool :=
  match resp with
  | none => .error ()
  | some (status, dec) =>
    if status = 200 then
      match dec with
      | none => .error ()
      | some r => .ok r
    else .error ()

/-- `validateJob`: build the request, send it (`httpDo` yields `none` on a
transport error, otherwise the status code and the JSON-decoded boolean
body), and decode the response. -/
def validateJob (templ : String → Option String) (base : List (String × String))
    (cfg : List String) (inbound : List (String × String))
    (httpDo : OutReq → Option (Nat × Option Bool)) (j : Job) : Except Unit Bool :=
  match buildValidateReq templ base cfg inbound j with
  | none => .error ()
  | some req => decideValidate (httpDo req)

/-- The default-owner substitution in `HandleAddJob`. -/
def applyDefaultOwner (defaultOwner : String) (j : Job) : Job :=
  if defaultOwner ≠ "" ∧ j.owner = "" then { j with owner := defaultOwner } else j

/-- Modelled from the spec: `Job.Init` is not part of the source slice. Per
§3 ("`id` is unique and immutable once assigned") it assigns a fresh id
only to a job that has none, validates the job (schedule parse, cycle
check — collapsed into the oracle `initOk`), and installs it in the
registry keyed by its id; on a validation failure nothing is installed.
`assignFreshId` is the id-assignment half. -/
def assignFreshId (freshId : String) (j : Job) : Job :=
  if j.id = "" then { j with id := freshId } else j

/-- Modelled from the spec: `Job.Init`, see `assignFreshId`. -/
def initJob (freshId : String) (initOk : Bool) (j : Job) (c : Cache) :
    Except Unit (Job × Cache) :=
  if initOk then
    let j2 := assignFreshId freshId j
    .ok (j2, setJob c j2.id j2)
  else .error ()

/-- `HandleAddJob` (POST `job/`): unmarshal (400 on failure), reject local
jobs when disabled (403), apply the default owner, validate remote jobs
against the remote endpoint (403 on error or a non-`true` result), then
`Init` (400 on failure, else 201 with the new id). -/
def handleAddJob (defaultOwner : String) (disableLocalJobs : Bool)
    (parse : List Nat → Option Job) (templ : String → Option String)
    (base : List (String × String)) (cfg : List String)
    (inbound : List (String × String)) (httpDo : OutReq → Option (Nat × Option Bool))
    (freshId : String) (initOk : Bool) (body : List Nat) (c : Cache) : HResult :=
  match unmarshalNewJob parse body with
  | none => ⟨400, .errJson, c⟩
  | some newJob =>
    if disableLocalJobs ∧ newJob.jobType = .local then ⟨403, .errJson, c⟩
    else
      let newJob := applyDefaultOwner defaultOwner newJob
      let install :=
        match initJob freshId initOk newJob c with
        | .error _ => (⟨400, .errJson, c⟩ : HResult)
        | .ok (j2, c2) => ⟨201, .idBody j2.id, c2⟩
      if newJob.jobType = .remote then
        match validateJob templ base cfg inbound httpDo newJob with
        | .ok true => install
        | _ => ⟨403, .empty, c⟩
      else install

/-- `HandleDeleteAllJobs` (DELETE `job/all/`): 403 with no effect when the
option disables it; otherwise `job.DeleteAll` (modelled from the spec as
emptying the registry; `deleteAllOk` is its success oracle). -/
def handleDeleteAllJobs (disableDeleteAll : Bool) (deleteAllOk : Bool) (c : Cache) :
    HResult :=
  if disableDeleteAll then ⟨403, .empty, c⟩
  else if deleteAllOk then ⟨204, .empty, { c with jobs := [] }⟩
  else ⟨500, .errJson, c⟩

/-- `HandleJobRequest` (DELETE/GET/PUT `job/{id}/`): 404 when the job is
not in the registry; DELETE runs `j.Delete` (modelled from the spec §3 as
removing the job from the registry; `deleteOk` its success oracle, 500 on
failure); GET returns the job; PUT unmarshals the replacement (400),
rejects local jobs when disabled (403), forces the replacement's id to the
cached job's id, and runs `Init` (400 on failure, else 200 with the
replaced job). -/
def handleJobRequest (disableLocalJobs : Bool) (parse : List Nat → Option Job)
    (deleteOk : Bool) (freshId : String) (initOk : Bool) (method : Method)
    (id : String) (body : List Nat) (c : Cache) : HResult :=
  match getJob c id with
  | none => ⟨404, .empty, c⟩
  | some j =>
    match method with
    | .delete =>
      if deleteOk then ⟨204, .empty, eraseJob c id⟩ else ⟨500, .errJson, c⟩
    | .get => ⟨200, .jobBody j, c⟩
    | .post => ⟨404, .empty, c⟩
    | .put =>
      match unmarshalNewJob parse body with
      | none => ⟨400, .errJson, c⟩
      | some updatedJob =>
        if disableLocalJobs ∧ updatedJob.jobType = .local then ⟨403, .errJson, c⟩
        else
          let updatedJob := { updatedJob with id := j.id }
          match initJob freshId initOk updatedJob c with
          | .error _ => ⟨400, .errJson, c⟩
          | .ok (j2, c2) => ⟨200, .jobBody j2, c2⟩

/-- `HandleJobParamsRequest` (GET/PUT `job/{id}/params/`): 404 when the job
is missing, 403 when it is not remote; GET returns the raw remote body; PUT
reads the whole request body (`ioutil.ReadAll`, no limit), writes it into
the job's remote body and stores the job with `cache.Set` (modelled from
the spec §9 as a plain registry write that does not re-arm the timer;
`setOk` its success oracle, 500 on failure), answering 204.
`withRemoteBody` is the body replacement itself. -/
def withRemoteBody (j : Job) (b : String) : Job :=
  { j with remoteProperties := { j.remoteProperties with body := b } }

/-- `HandleJobParamsRequest`, see `withRemoteBody`. -/
def handleJobParamsRequest (setOk : Bool) (method : Method) (id : String)
    (body : List Nat) (c : Cache) : HResult :=
  match getJob c id with
  | none => ⟨404, .empty, c⟩
  | some j =>
    if j.jobType ≠ .remote then ⟨403, .errJson, c⟩
    else
      match method with
      | .get => ⟨200, .rawBody j.remoteProperties.body, c⟩
      | .put =>
        let j2 := withRemoteBody j (bytesToStr body)
        if setOk then ⟨204, .empty, setJob c id j2⟩ else ⟨500, .errJson, c⟩
      | _ => ⟨404, .empty, c⟩

/-- `HandleDisableJobRequest` (POST `job/disable/{id}/`): 404 when missing,
then `j.Disable` (modelled from the spec §4.6 as cancelling the timer and
setting the disabled flag; `disableOk` its success oracle, 500 on
failure), answering 204. -/
def handleDisableJobRequest (disableOk : Bool) (id : String) (c : Cache) : HResult :=
  match getJob c id with
  | none => ⟨404, .empty, c⟩
  | some j =>
    if disableOk then
      ⟨204, .empty, setJob c id { j with disabled := true, armed := false }⟩
    else ⟨500, .errJson, c⟩

/-- `HandleEnableJobRequest` (POST `job/enable/{id}/`): 404 when missing,
then `j.Enable` (modelled from the spec §4.6 as clearing the disabled flag
and re-arming; `enableOk` its success oracle, 500 on failure). -/
def handleEnableJobRequest (enableOk : Bool) (id : String) (c : Cache) : HResult :=
  match getJob c id with
  | none => ⟨404, .empty, c⟩
  | some j =>
    if enableOk then
      ⟨204, .empty, setJob c id { j with disabled := false, armed := true }⟩
    else ⟨500, .errJson, c⟩

/-- `HandleListJobRunsRequest` (GET `job/{id}/executions/`): 404 when the
job is missing; then `cache.GetAllRuns` (an oracle: its error or the run
list), answering 404 on its error and 200 with the runs otherwise. -/
def handleListJobRunsRequest (runsRes : Except Unit (List JobStat)) (id : String)
    (c : Cache) : HResult :=
  match getJob c id with
  | none => ⟨404, .empty, c⟩
  | some _ =>
    match runsRes with
    | .error _ => ⟨404, .empty, c⟩
    | .ok l => ⟨200, .runsBody l, c⟩

/-- `HandleJobRunRequest` (GET/PUT `job/{job_id}/executions/{id}/`). GET:
404 when the run is missing, else 200 with the run. PUT: 404 when the run
is missing; the job lookup failure is only logged, not returned; then the
status body is unmarshalled (400 on failure); then
`run.ExecutionDuration = j.Now().Sub(run.RanAt)` dereferences the job —
when the lookup returned no job this is a nil dereference, modelled as
`none` (the handler panics instead of completing); otherwise the run's
status and duration are overwritten and `cache.UpdateRun` stores it
(`updateOk` its success oracle, 500 on failure), answering 204. -/
def handleJobRunRequest (parseS : List Nat → Option JobStatus) (now : Int)
    (updateOk : Bool) (method : Method) (runId : String) (body : List Nat)
    (c : Cache) : Option HResult :=
  match method with
  | .get =>
    match getRun c runId with
    | none => some ⟨404, .empty, c⟩
    | some run => some ⟨200, .runBody run, c⟩
  | .put =>
    match getRun c runId with
    | none => some ⟨404, .empty, c⟩
    | some run =>
      let jOpt := getJob c run.jobId
      match unmarshalJobStatus parseS body with
      | none => some ⟨400, .empty, c⟩
      | some st =>
        match jOpt with
        | none => none
        | some _ =>
          let run2 := { run with status := st, executionDuration := now - run.ranAt }
          if updateOk then some ⟨204, .empty, setRun c runId run2⟩
          else some ⟨500, .errJson, c⟩
  | _ => some ⟨404, .empty, c⟩

/-! Concrete fixtures used by witnesses and counterexamples. -/

/-- A remote-properties record with every field at a neutral value. -/
def baseRemote : RemoteProperties :=
  { url := "http://h/x", method := "POST", body := "{}", headers := [],
    timeoutMs := 0, expectedResponseCodes := [200] }

/-- A job record with every field at a neutral value. -/
def baseJob : Job :=
  { id := "", name := "n", owner := "", jobType := .local, disabled := false,
    schedule := "R2/2020-01-01T00:00:00Z/PT1M", retries := 0, epsilon := "",
    parents := [], command := "echo", args := [], nextRunAt := 0, armed := true,
    remoteProperties := baseRemote }

/-- A remote job installed under id `"a"`. -/
def exRemoteJob : Job := { baseJob with id := "a", jobType := .remote }

/-- A local job installed under id `"b"`. -/
def exLocalJob : Job := { baseJob with id := "b" }

/-- A finished run of job `"a"`. -/
def exRun : JobStat :=
  { id := "r1", jobId := "a", ranAt := 5, numberOfRetries := 0,
    status := .success, executionDuration := 7, output := "" }

/-- A run whose `jobId` is not in the registry. -/
def exOrphanRun : JobStat :=
  { id := "r0", jobId := "ghost", ranAt := 5, numberOfRetries := 0,
    status := .running, executionDuration := 0, output := "" }

/-- A registry holding the two jobs and the two runs above. -/
def exCache : Cache :=
  { jobs := [("a", exRemoteJob), ("b", exLocalJob)],
    runs := [("r1", exRun), ("r0", exOrphanRun)] }

/-- A request body one byte past the 1 MiB read limit. -/
def bigBody1 : List Nat := List.replicate bodyLimit 0 ++ [1]

/-- A body agreeing with `bigBody1` on the first 1 MiB but not beyond. -/
def bigBody2 : List Nat := List.replicate bodyLimit 0 ++ [2]

/-! Helper lemmas about the association-list registry and headers. -/

theorem alookup_aset {α : Type} (l : List (String × α)) (k k2 : String) (v : α) :
    alookup (aset l k v) k2 = if k = k2 then some v else alookup l k2 := by
  induction l with
  | nil => simp [aset, alookup]
  | cons p t ih =>
    obtain ⟨k3, v3⟩ := p
    simp only [aset]
    by_cases h3 : k3 = k
    · simp only [if_pos h3, alookup]
      by_cases h2 : k = k2
      · simp [h2]
      · have h32 : ¬k3 = k2 := fun e => h2 (h3.symm.trans e)
        simp [h2, h32]
    · simp only [if_neg h3, alookup]
      by_cases h2 : k3 = k2
      · have hk2 : ¬k = k2 := fun e => h3 (h2 ▸ e.symm ▸ rfl)
        simp [h2, hk2]
      · simp [h2, ih]

theorem headerGet_setHeader (hs : List (String × String)) (n v m : String) :
    headerGet (setHeader hs n v) m = if n = m then v else headerGet hs m := by
  unfold headerGet setHeader
  rw [alookup_aset]
  by_cases h : n = m
  · simp [h]
  · simp [h]

theorem forwardHeaders_cons (a : String) (t : List String)
    (inbound hs : List (String × String)) :
    forwardHeaders (a :: t) inbound hs =
      forwardHeaders t inbound
        (if headerGet inbound a ≠ "" then setHeader hs a (headerGet inbound a)
         else hs) := by
  rfl

theorem headerGet_forwardHeaders_notMem (cfg : List String)
    (inbound hs : List (String × String)) (h : String) (hmem : h ∉ cfg) :
    headerGet (forwardHeaders cfg inbound hs) h = headerGet hs h := by
  induction cfg generalizing hs with
  | nil => rfl
  | cons a t ih =>
    have ha : h ≠ a := fun e => hmem (e ▸ List.mem_cons_self a t)
    have ht : h ∉ t := fun e => hmem (List.mem_cons_of_mem a e)
    rw [forwardHeaders_cons, ih _ ht]
    by_cases hv : headerGet inbound a ≠ ""
    · rw [if_pos hv, headerGet_setHeader, if_neg fun e => ha (Eq.symm e)]
    · rw [if_neg hv]

theorem headerGet_forwardHeaders_mem (cfg : List String)
    (inbound hs : List (String × String)) (h : String) (hmem : h ∈ cfg)
    (hne : headerGet inbound h ≠ "") :
    headerGet (forwardHeaders cfg inbound hs) h = headerGet inbound h := by
  induction cfg generalizing hs with
  | nil => exact absurd hmem (List.not_mem_nil h)
  | cons a t ih =>
    rw [forwardHeaders_cons]
    by_cases ht : h ∈ t
    · exact ih _ ht
    · have ha : h = a := by
        cases List.mem_cons.mp hmem with
        | inl e => exact e
        | inr e => exact absurd e ht
      subst ha
      rw [headerGet_forwardHeaders_notMem t inbound _ h ht]
      rw [if_pos hne, headerGet_setHeader, if_pos rfl]

theorem wfJobs_lookup (l : List (String × Job)) (hwf : ∀ p ∈ l, (p.2).id = p.1)
    (id : String) (j : Job) (hget : alookup l id = some j) : j.id = id := by
  induction l with
  | nil => simp [alookup] at hget
  | cons p t ih =>
    obtain ⟨k, v⟩ := p
    by_cases hk : k = id
    · simp only [alookup, if_pos hk, Option.some.injEq] at hget
      subst hget
      exact hk ▸ hwf (k, v) (List.mem_cons_self _ _)
    · simp only [alookup, if_neg hk] at hget
      exact ih (fun q hq => hwf q (List.mem_cons_of_mem _ hq)) hget

theorem wfCache_lookup (c : Cache) (hwf : wfCache c) (id : String) (j : Job)
    (hget : getJob c id = some j) : j.id = id :=
  wfJobs_lookup c.jobs hwf id j hget

theorem applyDefaultOwner_jobType (d : String) (j : Job) :
    (applyDefaultOwner d j).jobType = j.jobType := by
  unfold applyDefaultOwner
  split <;> rfl

theorem validateJob_ok_true_iff (templ : String → Option String)
    (base : List (String × String)) (cfg : List String)
    (inbound : List (String × String)) (httpDo : OutReq → Option (Nat × Option Bool))
    (j : Job) (req : OutReq)
    (hreq : buildValidateReq templ base cfg inbound j = some req) :
    validateJob templ base cfg inbound httpDo j = .ok true ↔
      httpDo req = some (200, some true) := by
  unfold validateJob
  rw [hreq]
  cases hdo : httpDo req with
  | none => simp [decideValidate, hdo]
  | some p =>
    obtain ⟨status, dec⟩ := p
    by_cases hs : status = 200
    · subst hs
      cases dec with
      | none => simp [decideValidate, hdo]
      | some r => cases r <;> simp [decideValidate, hdo]
    · simp [decideValidate, hdo, hs]

/-- C1: for a create request carrying a remote job, `validateJob` POSTs the
templated body to the templated url with `/validate` appended (a `/` is
inserted only when the url does not already end in one), forwarding each
configured `remote.headers` value of the inbound request when non-empty;
given a successful `Init`, the job is installed iff that call returns
HTTP 200 with a body decoding to JSON `true`, and in every other case the
request is answered 403 with the registry unchanged. -/
theorem addJob_remote_validation_gate
    (defaultOwner : String) (disableLocalJobs : Bool)
    (parse : List Nat → Option Job) (templ : String → Option String)
    (base : List (String × String)) (cfg : List String)
    (inbound : List (String × String)) (httpDo : OutReq → Option (Nat × Option Bool))
    (freshId : String) (body : List Nat) (c : Cache) (nj : Job) (u b : String)
    (req : OutReq)
    (hparse : unmarshalNewJob parse body = some nj)
    (hremote : nj.jobType = .remote)
    (hu : templ (applyDefaultOwner defaultOwner nj).remoteProperties.url = some u)
    (hb : templ (applyDefaultOwner defaultOwner nj).remoteProperties.body = some b)
    (hreq : req = { method := "POST", url := appendValidate u, body := b,
                    headers := forwardHeaders cfg inbound base }) :
    (u.endsWith "/" = true → req.url = u ++ "validate") ∧
    (u.endsWith "/" = false → req.url = u ++ "/validate") ∧
    (∀ h ∈ cfg, headerGet inbound h ≠ "" →
       headerGet req.headers h = headerGet inbound h) ∧
    (httpDo req = some (200, some true) →
       handleAddJob defaultOwner disableLocalJobs parse templ base cfg inbound
           httpDo freshId true body c =
         ⟨201, .idBody (assignFreshId freshId (applyDefaultOwner defaultOwner nj)).id,
          setJob c (assignFreshId freshId (applyDefaultOwner defaultOwner nj)).id
            (assignFreshId freshId (applyDefaultOwner defaultOwner nj))⟩) ∧
    (∀ initOk : Bool, httpDo req ≠ some (200, some true) →
       handleAddJob defaultOwner disableLocalJobs parse templ base cfg inbound
           httpDo freshId initOk body c = ⟨403, .empty, c⟩) := by
  subst hreq
  have hbuild : buildValidateReq templ base cfg inbound (applyDefaultOwner defaultOwner nj)
      = some ⟨"POST", appendValidate u, b, forwardHeaders cfg inbound base⟩ := by
    unfold buildValidateReq
    rw [hu, hb]
  have hty : (applyDefaultOwner defaultOwner nj).jobType = JobType.remote :=
    (applyDefaultOwner_jobType defaultOwner nj).trans hremote
  refine ⟨fun he => by simp [appendValidate, he],
      fun he => by simp [appendValidate, he],
      fun h hm hne => headerGet_forwardHeaders_mem cfg inbound base h hm hne, ?_, ?_⟩
  · intro h200
    have hval : validateJob templ base cfg inbound httpDo
        (applyDefaultOwner defaultOwner nj) = .ok true :=
      (validateJob_ok_true_iff templ base cfg inbound httpDo _ _ hbuild).mpr h200
    simp [handleAddJob, hparse, hremote, hty, hval, initJob]
  · intro initOk hne
    have hval : validateJob templ base cfg inbound httpDo
        (applyDefaultOwner defaultOwner nj) ≠ .ok true := fun e =>
      hne ((validateJob_ok_true_iff templ base cfg inbound httpDo _ _ hbuild).mp e)
    cases hv : validateJob templ base cfg inbound httpDo
        (applyDefaultOwner defaultOwner nj) with
    | error e => simp [handleAddJob, hparse, hremote, hty, hv]
    | ok r =>
      cases r with
      | false => simp [handleAddJob, hparse, hremote, hty, hv]
      | true => exact absurd hv hval

/-- C1 witness: a concrete remote-job create passing validation is
installed with 201. -/
theorem addJob_remote_validation_gate_witness :
    handleAddJob "" false (fun _ => some exRemoteJob) (fun s => some s) []
        ["X-Auth"] [("X-Auth", "tok")] (fun _ => some (200, some true)) "f" true
        [] ⟨[], []⟩ =
      ⟨201, .idBody (assignFreshId "f" (applyDefaultOwner "" exRemoteJob)).id,
       setJob ⟨[], []⟩ (assignFreshId "f" (applyDefaultOwner "" exRemoteJob)).id
         (assignFreshId "f" (applyDefaultOwner "" exRemoteJob))⟩ :=
  (addJob_remote_validation_gate "" false (fun _ => some exRemoteJob)
      (fun s => some s) [] ["X-Auth"] [("X-Auth", "tok")]
      (fun _ => some (200, some true)) "f" [] ⟨[], []⟩ exRemoteJob "http://h/x"
      "{}" _ rfl rfl rfl rfl rfl).2.2.2.1 rfl

/-- C4: with `disable-delete-all` set, DELETE `job/all/` answers 403 and the
registry is returned exactly as it was, whatever the deletion oracle says
(no deletion is attempted). -/
theorem deleteAll_disabled_forbidden_noop (deleteAllOk : Bool) (c : Cache) :
    handleDeleteAllJobs true deleteAllOk c = ⟨403, .empty, c⟩ := by
  rfl

/-- C2 counterexample: on a run whose stored status is already terminal
(`success`, not `running`), a PUT with a terminal incoming status does not
leave the run unchanged — the code overwrites status and duration. -/
theorem jobRun_put_overwrite_counterexample :
    handleJobRunRequest (fun _ => some JobStatus.failed) 100 true .put "r1" []
        exCache =
      some ⟨204, .empty, setRun exCache "r1"
        { exRun with status := JobStatus.failed, executionDuration := 95 }⟩ ∧
    getRun (setRun exCache "r1"
        { exRun with status := JobStatus.failed, executionDuration := 95 }) "r1"
      ≠ some exRun := by
  exact ⟨by decide, by decide⟩

/-- C2 amended: on a PUT to an existing run whose job is also present, with
a well-formed status body, the stored status is overwritten with the
incoming status and the execution-duration is set to now minus ran-at
unconditionally (whatever the stored or incoming status); on UpdateRun
success the response is 204, on its failure 500. -/
theorem jobRun_put_unconditional_overwrite
    (parseS : List Nat → Option JobStatus) (now : Int) (runId : String)
    (body : List Nat) (c : Cache) (run : JobStat) (st : JobStatus) (j : Job)
    (hrun : getRun c runId = some run)
    (hjob : getJob c run.jobId = some j)
    (hst : unmarshalJobStatus parseS body = some st) :
    handleJobRunRequest parseS now true .put runId body c =
      some ⟨204, .empty, setRun c runId
        { run with status := st, executionDuration := now - run.ranAt }⟩ ∧
    handleJobRunRequest parseS now false .put runId body c =
      some ⟨500, .errJson, c⟩ := by
  constructor
  · simp [handleJobRunRequest, hrun, hjob, hst]
  · simp [handleJobRunRequest, hrun, hjob, hst]

/-- C2 witness: the amended overwrite evaluated on a concrete run. -/
theorem jobRun_put_unconditional_overwrite_witness :
    handleJobRunRequest (fun _ => some JobStatus.failed) 40 true .put "r1" []
        exCache =
      some ⟨204, .empty, setRun exCache "r1"
        { exRun with status := JobStatus.failed,
                     executionDuration := 40 - exRun.ranAt }⟩ ∧
    handleJobRunRequest (fun _ => some JobStatus.failed) 40 false .put "r1" []
        exCache = some ⟨500, .errJson, exCache⟩ :=
  jobRun_put_unconditional_overwrite (fun _ => some JobStatus.failed) 40 "r1"
    [] exCache exRun JobStatus.failed exRemoteJob rfl rfl rfl

theorem getJob_setJob (c : Cache) (id : String) (j : Job) :
    getJob (setJob c id j) id = some j := by
  unfold getJob setJob
  rw [alookup_aset, if_pos rfl]

/-- C3 amended: the three handlers that read through the 1 MiB
`LimitReader` (create job, replace job, overwrite run status) give the same
response and registry effect on any two bodies agreeing on their first
1048576 bytes; the params PUT is exempt (see the counterexample). -/
theorem limited_body_handlers_agree
    (parse : List Nat → Option Job) (parseS : List Nat → Option JobStatus)
    (templ : String → Option String) (base : List (String × String))
    (cfg : List String) (inbound : List (String × String))
    (httpDo : OutReq → Option (Nat × Option Bool))
    (defaultOwner freshId id runId : String)
    (disableLocalJobs deleteOk initOk updateOk : Bool) (now : Int) (c : Cache)
    (b1 b2 : List Nat) (hagree : b1.take bodyLimit = b2.take bodyLimit) :
    handleAddJob defaultOwner disableLocalJobs parse templ base cfg inbound
        httpDo freshId initOk b1 c =
      handleAddJob defaultOwner disableLocalJobs parse templ base cfg inbound
        httpDo freshId initOk b2 c ∧
    handleJobRequest disableLocalJobs parse deleteOk freshId initOk .put id b1 c =
      handleJobRequest disableLocalJobs parse deleteOk freshId initOk .put id b2 c ∧
    handleJobRunRequest parseS now updateOk .put runId b1 c =
      handleJobRunRequest parseS now updateOk .put runId b2 c := by
  have h1 : unmarshalNewJob parse b1 = unmarshalNewJob parse b2 := by
    unfold unmarshalNewJob
    rw [hagree]
  have h2 : unmarshalJobStatus parseS b1 = unmarshalJobStatus parseS b2 := by
    unfold unmarshalJobStatus
    rw [hagree]
  refine ⟨?_, ?_, ?_⟩
  · unfold handleAddJob
    rw [h1]
  · unfold handleJobRequest
    rw [h1]
  · unfold handleJobRunRequest
    rw [h2]

/-- C3 witness: agreement on concrete small bodies. -/
theorem limited_body_handlers_agree_witness :
    handleAddJob "" false (fun _ => none) (fun s => some s) [] [] []
        (fun _ => none) "f" true [7] exCache =
      handleAddJob "" false (fun _ => none) (fun s => some s) [] [] []
        (fun _ => none) "f" true [7] exCache ∧
    handleJobRequest false (fun _ => none) true "f" true .put "a" [7] exCache =
      handleJobRequest false (fun _ => none) true "f" true .put "a" [7] exCache ∧
    handleJobRunRequest (fun _ => none) 0 true .put "r1" [7] exCache =
      handleJobRunRequest (fun _ => none) 0 true .put "r1" [7] exCache :=
  limited_body_handlers_agree (fun _ => none) (fun _ => none) (fun s => some s)
    [] [] [] (fun _ => none) "" "f" "a" "r1" false true true true 0 exCache
    [7] [7] rfl

/-- C3 counterexample: the params PUT reads the whole body, so two bodies
agreeing on their first 1048576 bytes can produce different registry
effects. -/
theorem params_put_unbounded_read_counterexample :
    bigBody1.take bodyLimit = bigBody2.take bodyLimit ∧
    handleJobParamsRequest true .put "a" bigBody1 exCache ≠
      handleJobParamsRequest true .put "a" bigBody2 exCache := by
  have hg : getJob exCache "a" = some exRemoteJob := rfl
  have hjt : exRemoteJob.jobType = JobType.remote := rfl
  have e1 : handleJobParamsRequest true .put "a" bigBody1 exCache =
      ⟨204, .empty, setJob exCache "a" (withRemoteBody exRemoteJob (bytesToStr bigBody1))⟩ := by
    simp [handleJobParamsRequest, hg, hjt]
  have e2 : handleJobParamsRequest true .put "a" bigBody2 exCache =
      ⟨204, .empty, setJob exCache "a" (withRemoteBody exRemoteJob (bytesToStr bigBody2))⟩ := by
    simp [handleJobParamsRequest, hg, hjt]
  have hneq : bytesToStr bigBody1 ≠ bytesToStr bigBody2 := by
    unfold bytesToStr bigBody1 bigBody2
    intro e
    have e2 : (List.replicate bodyLimit 0 ++ [1]).map Char.ofNat =
        (List.replicate bodyLimit 0 ++ [2]).map Char.ofNat := by
      injection e
    rw [List.map_append, List.map_append] at e2
    have e3 : [1].map Char.ofNat = [2].map Char.ofNat :=
      List.append_cancel_left e2
    simp only [List.map] at e3
    have e4 : Char.ofNat 1 = Char.ofNat 2 := (List.cons.injEq _ _ _ _ ▸ e3).1
    exact absurd e4 (by decide)
  constructor
  · have key : ∀ x : Nat,
        (List.replicate bodyLimit (0 : Nat) ++ [x]).take bodyLimit =
          List.replicate bodyLimit 0 := by
      intro x
      have h := List.take_left (List.replicate bodyLimit (0 : Nat)) [x]
      rwa [List.length_replicate] at h
    unfold bigBody1 bigBody2
    rw [key, key]
  · intro h
    rw [e1, e2] at h
    have hb := congrArg (fun r => getJob r.cache "a") h
    simp only [getJob_setJob] at hb
    have hjj : withRemoteBody exRemoteJob (bytesToStr bigBody1) =
        withRemoteBody exRemoteJob (bytesToStr bigBody2) := by
      injection hb
    exact hneq (congrArg (fun j => j.remoteProperties.body) hjj)

/-- C5 counterexample: with job `"a"` present in the registry, a failing
`GetAllRuns` makes the list-runs handler answer 404, not 500. -/
theorem listRuns_failure_counterexample :
    getJob exCache "a" = some exRemoteJob ∧
    handleListJobRunsRequest (.error ()) "a" exCache = ⟨404, .empty, exCache⟩ ∧
    (handleListJobRunsRequest (.error ()) "a" exCache).status ≠ 500 := by
  exact ⟨rfl, rfl, by decide⟩

/-- C5 amended: a request naming a job or run id not present in the
registry yields 404, and a failure of delete, enable, disable or update of
a run on an existing entity yields 500 — but a failure listing an existing
job's runs yields 404, not 500. -/
theorem error_code_mapping
    (disableLocalJobs deleteOk disableOk enableOk initOk updateOk : Bool)
    (parse : List Nat → Option Job) (parseS : List Nat → Option JobStatus)
    (runsRes : Except Unit (List JobStat)) (freshId id runId : String)
    (body : List Nat) (now : Int) (c : Cache) (method : Method) :
    (getJob c id = none →
       handleJobRequest disableLocalJobs parse deleteOk freshId initOk method
         id body c = ⟨404, .empty, c⟩) ∧
    (getJob c id = none →
       handleDisableJobRequest disableOk id c = ⟨404, .empty, c⟩) ∧
    (getJob c id = none →
       handleEnableJobRequest enableOk id c = ⟨404, .empty, c⟩) ∧
    (getJob c id = none →
       handleListJobRunsRequest runsRes id c = ⟨404, .empty, c⟩) ∧
    (getRun c runId = none →
       handleJobRunRequest parseS now updateOk .get runId body c =
         some ⟨404, .empty, c⟩) ∧
    (getRun c runId = none →
       handleJobRunRequest parseS now updateOk .put runId body c =
         some ⟨404, .empty, c⟩) ∧
    (∀ j, getJob c id = some j →
       handleJobRequest disableLocalJobs parse false freshId initOk .delete
         id body c = ⟨500, .errJson, c⟩) ∧
    (∀ j, getJob c id = some j →
       handleDisableJobRequest false id c = ⟨500, .errJson, c⟩) ∧
    (∀ j, getJob c id = some j →
       handleEnableJobRequest false id c = ⟨500, .errJson, c⟩) ∧
    (∀ run j st, getRun c runId = some run → getJob c run.jobId = some j →
       unmarshalJobStatus parseS body = some st →
       handleJobRunRequest parseS now false .put runId body c =
         some ⟨500, .errJson, c⟩) ∧
    (∀ j, getJob c id = some j →
       handleListJobRunsRequest (.error ()) id c = ⟨404, .empty, c⟩) := by
  refine ⟨?_, ?_, ?_, ?_, ?_, ?_, ?_, ?_, ?_, ?_, ?_⟩
  · intro h
    cases method <;> simp [handleJobRequest, h]
  · intro h
    simp [handleDisableJobRequest, h]
  · intro h
    simp [handleEnableJobRequest, h]
  · intro h
    simp [handleListJobRunsRequest, h]
  · intro h
    simp [handleJobRunRequest, h]
  · intro h
    simp [handleJobRunRequest, h]
  · intro j h
    simp [handleJobRequest, h]
  · intro j h
    simp [handleDisableJobRequest, h]
  · intro j h
    simp [handleEnableJobRequest, h]
  · intro run j st hr hj hst
    simp [handleJobRunRequest, hr, hj, hst]
  · intro j h
    simp [handleListJobRunsRequest, h]

/-- C5 witness: the mapping evaluated at concrete missing and failing
requests. -/
theorem error_code_mapping_witness :
    handleJobRequest false (fun _ => none) true "f" true .get "zz" [] exCache =
      ⟨404, .empty, exCache⟩ ∧
    handleDisableJobRequest false "a" exCache = ⟨500, .errJson, exCache⟩ ∧
    handleJobRunRequest (fun _ => some JobStatus.failed) 0 false .put "r1" []
        exCache = some ⟨500, .errJson, exCache⟩ ∧
    handleListJobRunsRequest (.error ()) "b" exCache = ⟨404, .empty, exCache⟩ :=
  ⟨(error_code_mapping false true false false true true (fun _ => none)
      (fun _ => some JobStatus.failed) (.ok []) "f" "zz" "r1" [] 0 exCache
      .get).1 rfl,
   (error_code_mapping false true false false true true (fun _ => none)
      (fun _ => some JobStatus.failed) (.ok []) "f" "a" "r1" [] 0 exCache
      .get).2.2.2.2.2.2.2.1 exRemoteJob rfl,
   (error_code_mapping false true false false true true (fun _ => none)
      (fun _ => some JobStatus.failed) (.ok []) "f" "a" "r1" [] 0 exCache
      .get).2.2.2.2.2.2.2.2.2.1 exRun exRemoteJob JobStatus.failed rfl rfl rfl,
   (error_code_mapping false true false false true true (fun _ => none)
      (fun _ => some JobStatus.failed) (.ok []) "f" "b" "r1" [] 0 exCache
      .get).2.2.2.2.2.2.2.2.2.2 exLocalJob rfl⟩

/-- C6: a PUT to an existing job installs a job whose id is the path id,
whatever id the body carried, and answers 200 with the replaced job; a PUT
to a missing id answers 404 and installs nothing. -/
theorem jobPut_preserves_path_id
    (disableLocalJobs : Bool) (parse : List Nat → Option Job)
    (deleteOk initOk : Bool) (freshId id : String) (body : List Nat)
    (c : Cache) :
    (∀ j u, wfCache c → getJob c id = some j →
       unmarshalNewJob parse body = some u →
       ¬(disableLocalJobs ∧ u.jobType = JobType.local) → id ≠ "" →
       handleJobRequest disableLocalJobs parse deleteOk freshId true .put id
         body c =
         ⟨200, .jobBody { u with id := id }, setJob c id { u with id := id }⟩) ∧
    (getJob c id = none →
       handleJobRequest disableLocalJobs parse deleteOk freshId initOk .put id
         body c = ⟨404, .empty, c⟩) := by
  constructor
  · intro j u hwf hget hu hgate hne
    have hid : j.id = id := wfCache_lookup c hwf id j hget
    have ha : assignFreshId freshId { u with id := id } = { u with id := id } := by
      unfold assignFreshId
      simp [hne]
    simp [handleJobRequest, hget, hu, hgate, initJob, hid, ha]
  · intro h
    simp [handleJobRequest, h]

/-- C6 witness: replacing job `"a"` with a body carrying id `"zzz"`
installs the job under id `"a"`. -/
theorem jobPut_preserves_path_id_witness :
    handleJobRequest false (fun _ => some { baseJob with id := "zzz" }) true "f"
        true .put "a" [] exCache =
      ⟨200, .jobBody { { baseJob with id := "zzz" } with id := "a" },
       setJob exCache "a" { { baseJob with id := "zzz" } with id := "a" }⟩ :=
  (jobPut_preserves_path_id false (fun _ => some { baseJob with id := "zzz" })
      true true "f" "a" [] exCache).1 exRemoteJob { baseJob with id := "zzz" }
    (by decide) rfl rfl (by decide) (by decide)

/-- C7: a PUT to the params path of an existing remote job replaces only
the remote body (every other field, including schedule, next-run-at and
the timer state, is unchanged, and the timer is not re-armed) and answers
204; for a non-remote job both GET and PUT answer 403 and change
nothing. -/
theorem params_put_frame
    (setOk : Bool) (id : String) (body : List Nat) (c : Cache) (j : Job)
    (hget : getJob c id = some j) :
    (j.jobType = JobType.remote →
       handleJobParamsRequest true .put id body c =
         ⟨204, .empty, setJob c id (withRemoteBody j (bytesToStr body))⟩ ∧
       (withRemoteBody j (bytesToStr body)).remoteProperties.body =
         bytesToStr body ∧
       (withRemoteBody j (bytesToStr body)).id = j.id ∧
       (withRemoteBody j (bytesToStr body)).name = j.name ∧
       (withRemoteBody j (bytesToStr body)).owner = j.owner ∧
       (withRemoteBody j (bytesToStr body)).jobType = j.jobType ∧
       (withRemoteBody j (bytesToStr body)).disabled = j.disabled ∧
       (withRemoteBody j (bytesToStr body)).schedule = j.schedule ∧
       (withRemoteBody j (bytesToStr body)).retries = j.retries ∧
       (withRemoteBody j (bytesToStr body)).epsilon = j.epsilon ∧
       (withRemoteBody j (bytesToStr body)).parents = j.parents ∧
       (withRemoteBody j (bytesToStr body)).command = j.command ∧
       (withRemoteBody j (bytesToStr body)).args = j.args ∧
       (withRemoteBody j (bytesToStr body)).nextRunAt = j.nextRunAt ∧
       (withRemoteBody j (bytesToStr body)).armed = j.armed ∧
       (withRemoteBody j (bytesToStr body)).remoteProperties.url =
         j.remoteProperties.url ∧
       (withRemoteBody j (bytesToStr body)).remoteProperties.method =
         j.remoteProperties.method ∧
       (withRemoteBody j (bytesToStr body)).remoteProperties.headers =
         j.remoteProperties.headers ∧
       (withRemoteBody j (bytesToStr body)).remoteProperties.timeoutMs =
         j.remoteProperties.timeoutMs ∧
       (withRemoteBody j (bytesToStr body)).remoteProperties.expectedResponseCodes =
         j.remoteProperties.expectedResponseCodes) ∧
    (j.jobType ≠ JobType.remote →
       handleJobParamsRequest setOk .get id body c = ⟨403, .errJson, c⟩ ∧
       handleJobParamsRequest setOk .put id body c = ⟨403, .errJson, c⟩) := by
  constructor
  · intro hr
    refine ⟨?_, rfl, rfl, rfl, rfl, rfl, rfl, rfl, rfl, rfl, rfl, rfl, rfl,
      rfl, rfl, rfl, rfl, rfl, rfl, rfl⟩
    simp [handleJobParamsRequest, hget, hr]
  · intro hr
    constructor <;> simp [handleJobParamsRequest, hget, hr]

/-- C7 witness: a params PUT on the remote job `"a"` stores the new body
with 204; on the local job `"b"` it answers 403 unchanged. -/
theorem params_put_frame_witness :
    handleJobParamsRequest true .put "a" [104] exCache =
      ⟨204, .empty, setJob exCache "a" (withRemoteBody exRemoteJob (bytesToStr [104]))⟩ ∧
    handleJobParamsRequest true .put "b" [104] exCache =
      ⟨403, .errJson, exCache⟩ :=
  ⟨((params_put_frame true "a" [104] exCache exRemoteJob rfl).1 rfl).1,
   ((params_put_frame true "b" [104] exCache exLocalJob rfl).2 (by decide)).2⟩

/-- C8: with `disable-local-jobs` set, a create or replace whose body
describes a local job is answered 403 with the registry unchanged, and for
a body of any other type the handlers behave exactly as with the option
unset. -/
theorem disable_local_jobs_gate
    (defaultOwner : String) (parse : List Nat → Option Job)
    (templ : String → Option String) (base : List (String × String))
    (cfg : List String) (inbound : List (String × String))
    (httpDo : OutReq → Option (Nat × Option Bool))
    (freshId id : String) (deleteOk initOk : Bool) (body : List Nat)
    (c : Cache) (nj : Job)
    (hparse : unmarshalNewJob parse body = some nj) :
    (nj.jobType = JobType.local →
       handleAddJob defaultOwner true parse templ base cfg inbound httpDo
         freshId initOk body c = ⟨403, .errJson, c⟩) ∧
    (∀ j, getJob c id = some j → nj.jobType = JobType.local →
       handleJobRequest true parse deleteOk freshId initOk .put id body c =
         ⟨403, .errJson, c⟩) ∧
    (nj.jobType ≠ JobType.local →
       handleAddJob defaultOwner true parse templ base cfg inbound httpDo
         freshId initOk body c =
       handleAddJob defaultOwner false parse templ base cfg inbound httpDo
         freshId initOk body c) ∧
    (nj.jobType ≠ JobType.local →
       handleJobRequest true parse deleteOk freshId initOk .put id body c =
       handleJobRequest false parse deleteOk freshId initOk .put id body c) := by
  refine ⟨?_, ?_, ?_, ?_⟩
  · intro hl
    simp [handleAddJob, hparse, hl]
  · intro j hget hl
    simp [handleJobRequest, hget, hparse, hl]
  · intro hnl
    simp [handleAddJob, hparse, hnl]
  · intro hnl
    cases hg : getJob c id <;> simp [handleJobRequest, hg, hparse, hnl]

/-- C8 witness: a local-job create under the option answers 403 unchanged,
and a remote-job create is identical with the option on or off. -/
theorem disable_local_jobs_gate_witness :
    handleAddJob "" true (fun _ => some exLocalJob) (fun s => some s) [] [] []
        (fun _ => none) "f" true [] exCache = ⟨403, .errJson, exCache⟩ ∧
    handleAddJob "" true (fun _ => some exRemoteJob) (fun s => some s) [] [] []
        (fun _ => none) "f" true [] exCache =
      handleAddJob "" false (fun _ => some exRemoteJob) (fun s => some s) [] []
        [] (fun _ => none) "f" true [] exCache :=
  ⟨(disable_local_jobs_gate "" (fun _ => some exLocalJob) (fun s => some s) []
      [] [] (fun _ => none) "f" "a" true true [] exCache exLocalJob rfl).1 rfl,
   (disable_local_jobs_gate "" (fun _ => some exRemoteJob) (fun s => some s) []
      [] [] (fun _ => none) "f" "a" true true [] exCache exRemoteJob
      rfl).2.2.1 (by decide)⟩

theorem assignFreshId_owner (f : String) (j : Job) :
    (assignFreshId f j).owner = j.owner := by
  unfold assignFreshId
  split <;> rfl

theorem applyDefaultOwner_owner_empty (d : String) (j : Job) (hd : d ≠ "")
    (hj : j.owner = "") : (applyDefaultOwner d j).owner = d := by
  unfold applyDefaultOwner
  rw [if_pos ⟨hd, hj⟩]

theorem applyDefaultOwner_owner_nonempty (d : String) (j : Job)
    (hj : j.owner ≠ "") : (applyDefaultOwner d j).owner = j.owner := by
  unfold applyDefaultOwner
  rw [if_neg fun h => hj h.2]

/-- C9: a creation (non-remote, passing the local gate and `Init`) installs
the owner-adjusted job: when the configured default owner is non-empty and
the submitted owner empty the created job's owner is the default owner,
and a non-empty submitted owner is preserved. -/
theorem default_owner_on_create
    (defaultOwner : String) (disableLocalJobs : Bool)
    (parse : List Nat → Option Job) (templ : String → Option String)
    (base : List (String × String)) (cfg : List String)
    (inbound : List (String × String)) (httpDo : OutReq → Option (Nat × Option Bool))
    (freshId : String) (body : List Nat) (c : Cache) (nj jj : Job)
    (hparse : unmarshalNewJob parse body = some nj)
    (hgate : ¬(disableLocalJobs ∧ nj.jobType = JobType.local))
    (hnr : nj.jobType ≠ JobType.remote)
    (hjj : jj = assignFreshId freshId (applyDefaultOwner defaultOwner nj)) :
    handleAddJob defaultOwner disableLocalJobs parse templ base cfg inbound
        httpDo freshId true body c = ⟨201, .idBody jj.id, setJob c jj.id jj⟩ ∧
    (defaultOwner ≠ "" → nj.owner = "" → jj.owner = defaultOwner) ∧
    (nj.owner ≠ "" → jj.owner = nj.owner) := by
  subst hjj
  refine ⟨?_, ?_, ?_⟩
  · simp [handleAddJob, hparse, hgate, initJob, applyDefaultOwner_jobType, hnr]
  · intro hd hown
    rw [assignFreshId_owner, applyDefaultOwner_owner_empty defaultOwner nj hd hown]
  · intro hown
    rw [assignFreshId_owner, applyDefaultOwner_owner_nonempty defaultOwner nj hown]

/-- C9 witness: creating a local job with empty owner under default owner
`"own"` installs a job owned by `"own"`. -/
theorem default_owner_on_create_witness :
    handleAddJob "own" false (fun _ => some exLocalJob) (fun s => some s) [] []
        [] (fun _ => none) "f" true [] ⟨[], []⟩ =
      ⟨201, .idBody (assignFreshId "f" (applyDefaultOwner "own" exLocalJob)).id,
       setJob ⟨[], []⟩ (assignFreshId "f" (applyDefaultOwner "own" exLocalJob)).id
         (assignFreshId "f" (applyDefaultOwner "own" exLocalJob))⟩ ∧
    (assignFreshId "f" (applyDefaultOwner "own" exLocalJob)).owner = "own" :=
  ⟨(default_owner_on_create "own" false (fun _ => some exLocalJob)
      (fun s => some s) [] [] [] (fun _ => none) "f" [] ⟨[], []⟩ exLocalJob _
      rfl (by decide) (by decide) rfl).1,
   (default_owner_on_create "own" false (fun _ => some exLocalJob)
      (fun s => some s) [] [] [] (fun _ => none) "f" [] ⟨[], []⟩ exLocalJob _
      rfl (by decide) (by decide) rfl).2.1 (by decide) rfl⟩

/-- C10: on a PUT for the run `"r0"` whose job id `"ghost"` is not in the
registry, the handler does not complete with an error status — it reaches
the computation that dereferences the absent job (the nil `j.Now()` call),
modelled as `none`. -/
theorem jobRun_put_nil_job_dereference :
    getRun exCache "r0" = some exOrphanRun ∧
    getJob exCache exOrphanRun.jobId = none ∧
    handleJobRunRequest (fun _ => some JobStatus.success) 100 true .put "r0" []
        exCache = none :=
  ⟨rfl, rfl, rfl⟩
